import Mathlib

/-!
Shallow embedding of `src/chart/opengl/nyquistseriesrenderer.cpp` (OSM,
chart::NyquistSeriesRenderer).

Modelling conventions:
* `float` is idealised as `ℚ` in the buffer/emission layer, where the code
  only moves values around without arithmetic on them, and as `ℝ` (with
  `ℂ` for the `complex` class) in the numeric accumulate/beforeSpline
  layer, where `complex::abs` needs a square root.
* `unsigned int` indices and counters are idealised as `ℕ`.
* `m_vertices` (a `QVector<GLfloat>` of size `maxBufferSize`) is a
  `List ℚ`; `operator[]`-writes are `List.set` (out-of-range writes,
  undefined behaviour in C++, are no-ops here, but the cursor and the
  vertex counter still record that the write happened).
-/

namespace NyquistSeriesRenderer

/-- The `complex` value type of the buffer layer: a pair of rationals. -/
structure CxQ where
  re : ℚ
  im : ℚ
deriving DecidableEq

instance : Add CxQ := ⟨fun a b => ⟨a.re + b.re, a.im + b.im⟩⟩

/-- One completed spline segment as delivered to the `collected` callback:
the four control points `ac[0..3]` and the four scalar controls `c[0..3]`. -/
structure Segment where
  ac0 : CxQ
  ac1 : CxQ
  ac2 : CxQ
  ac3 : CxQ
  c0 : ℚ
  c1 : ℚ
  c2 : ℚ
  c3 : ℚ
deriving DecidableEq

/-- The per-pass mutable state captured by the closures in
`NyquistSeriesRenderer::renderSeries`: the vertex buffer `m_vertices`, the
write cursor `i`, the counter `verticiesCount`, the band accumulator
`value` (`m_phase`, `m_magnitude`) and the separate `coherence` sum. -/
structure PassState where
  vertices : List ℚ
  i : ℕ
  verticiesCount : ℕ
  valuePhase : CxQ
  valueMagnitude : ℚ
  coherence : ℚ
deriving DecidableEq

/-- The twelve floats of one segment record, in buffer order: real parts
of `ac[0..3]`, imaginary parts of `ac[0..3]`, then `c[0..3]` (the
`memcpy` of 16 bytes). -/
def segFloats (seg : Segment) : List ℚ :=
  [seg.ac0.re, seg.ac1.re, seg.ac2.re, seg.ac3.re,
   seg.ac0.im, seg.ac1.im, seg.ac2.im, seg.ac3.im,
   seg.c0, seg.c1, seg.c2, seg.c3]

/-- The twelve buffer stores of one segment write:
`m_vertices[i + 0] = ac[0].real; …; m_vertices[i + 7] = ac[3].imag;`
followed by `memcpy(m_vertices.data() + i + 8, c, 4 * 4)`. -/
def write12 (buf : List ℚ) (i : ℕ) (seg : Segment) : List ℚ :=
  ((((((((((((buf.set (i + 0) seg.ac0.re).set (i + 1) seg.ac1.re).set
      (i + 2) seg.ac2.re).set (i + 3) seg.ac3.re).set
      (i + 4) seg.ac0.im).set (i + 5) seg.ac1.im).set
      (i + 6) seg.ac2.im).set (i + 7) seg.ac3.im).set
      (i + 8) seg.c0).set (i + 9) seg.c1).set
      (i + 10) seg.c2).set (i + 11) seg.c3)

/-- The `collected` lambda of `renderSeries`, acting on the captured
state.  Source, line for line:
`if (i > maxBufferSize) { qCritical("out of range"); return; }` —
report and drop, state untouched; otherwise store the twelve floats,
`verticiesCount++`, `i += 12`, `value.reset()`, `coherence = 0.f`.
(The first two `float` arguments of the lambda are ignored by its body
and omitted here.) -/
def collected (maxBufferSize : ℕ) (seg : Segment) (s : PassState) : PassState :=
  if s.i > maxBufferSize then s
  else
    { vertices := write12 s.vertices s.i seg
      i := s.i + 12
      verticiesCount := s.verticiesCount + 1
      valuePhase := ⟨0, 0⟩
      valueMagnitude := 0
      coherence := 0 }

/-- The `accumulate` lambda of `renderSeries`, buffer-layer view: fold one
raw bin with values `phase`, `magnitudeRaw`, `coherence` into the captured
accumulator (`value += phase; value += magnitudeRaw; coherence += c;`). -/
def accumulateQ (phase : CxQ) (magnitudeRaw coherenceBin : ℚ) (s : PassState) : PassState :=
  { s with
    valuePhase := s.valuePhase + phase
    valueMagnitude := s.valueMagnitude + magnitudeRaw
    coherence := s.coherence + coherenceBin }

/-- Maximum octave-band count the buffer is sized for (the factor `12` in
`m_pointsPerOctave * 12 * 12`; the adjacent source comment says
"max octave count: 11", the allocation uses 12). -/
def maxOctaveBands : ℕ := 12

/-- Floats per segment record (stride of the vertex layout). -/
def pointsPerSegment : ℕ := 12

/-- `maxBufferSize = m_pointsPerOctave * 12 * 12` from the head of
`renderSeries`. -/
def maxBufferSize (pointsPerOctave : ℕ) : ℕ := pointsPerOctave * 12 * 12

/-- `QVector::resize` semantics: truncate to `n` elements or pad with
value-initialised (`0`) elements up to `n`. -/
def resizeTo (l : List ℚ) (n : ℕ) : List ℚ :=
  l.take n ++ List.replicate (n - l.length) 0

/-- The render-thread configuration snapshot: `m_pointsPerOctave`,
`m_coherence`, `m_coherenceThreshold`. -/
structure RenderConfig where
  pointsPerOctave : ℕ
  coherence : Bool
  coherenceThreshold : ℚ
deriving DecidableEq

/-- The state at the top of `renderSeries`: cursor and counter zeroed
(`i = 0, verticiesCount = 0`), accumulator `value(0, 0)`,
`coherence = 0.f`, buffer as given. -/
def initState (buf : List ℚ) : PassState :=
  { vertices := buf
    i := 0
    verticiesCount := 0
    valuePhase := ⟨0, 0⟩
    valueMagnitude := 0
    coherence := 0 }

/-- Feed a sequence of completed segments through the `collected`
callback, left to right. -/
def runSegments (cap : ℕ) (segs : List Segment) (s : PassState) : PassState :=
  segs.foldl (fun st seg => collected cap seg st) s

/-- What a render pass leaves behind, CPU-side: the buffer, the vertex
count used for upload and draw, the `m_refreshBuffers` decision, and the
two coherence uniforms forwarded to the shader program
(`setUniformValue(m_coherenceThresholdU, …)` /
`setUniformValue(m_coherenceAlpha, …)`). -/
structure PassOutput where
  vertices : List ℚ
  verticiesCount : ℕ
  refreshBuffers : Bool
  uniformCoherenceThreshold : ℚ
  uniformCoherenceAlpha : Bool
deriving DecidableEq

/-- Modelled from the spec: the octave iteration routine
`iterateForSpline` is not among the provided sources; the spec treats it
as a shared library routine that deterministically groups the source bins
by `pointsPerOctave` and hands completed segments to `collected`.  It is
taken here as an arbitrary function `iter` from the configured
`pointsPerOctave` and the source data to the pass's list of completed
segments.  Everything around it is `renderSeries` itself: capacity
computation, conditional resize, the `collected` fold, and the uniform
forwarding of the two coherence settings. -/
def renderPass {σ : Type} (iter : ℕ → σ → List Segment)
    (cfg : RenderConfig) (src : σ) (prior : List ℚ) : PassOutput :=
  let cap := maxBufferSize cfg.pointsPerOctave
  let buf := resizeTo prior cap
  let final := runSegments cap (iter cfg.pointsPerOctave src) (initState buf)
  { vertices := final.vertices
    verticiesCount := final.verticiesCount
    refreshBuffers := prior.length != cap
    uniformCoherenceThreshold := cfg.coherenceThreshold
    uniformCoherenceAlpha := cfg.coherence }

/-- The configuration owner (`NyquistPlot`) interface consumed at
synchronize time: `pointsPerOctave()`, `coherence()`,
`coherenceThreshold()`. -/
structure NyquistPlot where
  pointsPerOctave : ℕ
  coherence : Bool
  coherenceThreshold : ℚ
deriving DecidableEq

/-- What `m_item->parent()` can be: absent (null), present but of some
other kind, or an actual `NyquistPlot`. -/
inductive ParentItem where
  | absent : ParentItem
  | otherKind : ParentItem
  | nyquist : NyquistPlot → ParentItem
deriving DecidableEq

/-- `dynamic_cast<NyquistPlot *>(m_item->parent())`: null for an absent
parent or one of an unexpected kind. -/
def dynCastNyquistPlot : ParentItem → Option NyquistPlot
  | ParentItem.nyquist p => some p
  | _ => none

/-- `NyquistSeriesRenderer::synchronize`, restricted to the three fields
it owns: when the cast succeeds, copy `pointsPerOctave`, `coherence`,
`coherenceThreshold` from the plot; otherwise leave the current values. -/
def synchronize (parent : ParentItem) (cur : RenderConfig) : RenderConfig :=
  match dynCastNyquistPlot parent with
  | some plot => ⟨plot.pointsPerOctave, plot.coherence, plot.coherenceThreshold⟩
  | none => cur

/-- A concrete segment for closed evaluations. -/
def demoSegment : Segment :=
  ⟨⟨1, 2⟩, ⟨3, 4⟩, ⟨5, 6⟩, ⟨7, 8⟩, 9, 10, 11, 12⟩

/-- Two pass states agree on everything except, possibly, buffer cells at
or past the write cursor (used to show the pass overwrites the whole
region it later uploads, so stale buffer contents never show through). -/
def StateSim (s1 s2 : PassState) : Prop :=
  s1.i = s2.i ∧ s1.verticiesCount = s2.verticiesCount ∧
  s1.valuePhase = s2.valuePhase ∧ s1.valueMagnitude = s2.valueMagnitude ∧
  s1.coherence = s2.coherence ∧ s1.vertices.length = s2.vertices.length ∧
  ∀ j, j < s1.i → s1.vertices[j]? = s2.vertices[j]?

/-- The write cursor always sits at 12 floats per emitted vertex. -/
def CursorInv (s : PassState) : Prop := s.i = 12 * s.verticiesCount

/-! Numeric layer: the band accumulator and the spline pre-processor over
`ℝ`/`ℂ` (the `complex` class of the repository is not under the provided
sources; it is the usual cartesian complex type with
`abs = sqrt(re² + im²)`, which `Complex.abs` is). -/

/-- The local `struct NyquistSplineValue` of `renderSeries`: phasor sum
`m_phase` and magnitude sum `m_magnitude`. -/
structure NyquistSplineValue where
  m_phase : ℂ
  m_magnitude : ℝ

/-- The source collaborator interface used by `accumulate`: per-bin
`phase(i)`, `magnitudeRaw(i)`, `coherence(i)`. -/
structure SourceModel where
  phase : ℕ → ℂ
  magnitudeRaw : ℕ → ℝ
  coherence : ℕ → ℝ

/-- The `accumulate` lambda, numeric view: fold bin `idx` into the
accumulator and the coherence sum by plain addition. -/
noncomputable def accumulate (src : SourceModel) (value : NyquistSplineValue)
    (coherence : ℝ) (idx : ℕ) : NyquistSplineValue × ℝ :=
  (⟨value.m_phase + src.phase idx, value.m_magnitude + src.magnitudeRaw idx⟩,
   coherence + src.coherence idx)

/-- The `beforeSpline` lambda, line for line:
`complex c = value->m_phase / count; c /= c.abs();
c *= value->m_magnitude / count; return c;` -/
noncomputable def beforeSpline (value : NyquistSplineValue) (count : ℝ) : ℂ :=
  let c := value.m_phase / (count : ℂ)
  let c2 := c / ((Complex.abs c : ℝ) : ℂ)
  c2 * ((value.m_magnitude / count : ℝ) : ℂ)

/-- Modelled from the spec: `unitPhase(z) = z / |z|`. -/
noncomputable def specUnitPhase (z : ℂ) : ℂ := z / ((Complex.abs z : ℝ) : ℂ)

/-- Modelled from the spec: the control point
`direction = unitPhase(phaseSum/count) * (magnitudeSum/count)`. -/
noncomputable def specControlPoint (phaseSum : ℂ) (magnitudeSum count : ℝ) : ℂ :=
  specUnitPhase (phaseSum / (count : ℂ)) * ((magnitudeSum : ℂ) / (count : ℂ))

/-- `beforeSpline` with its division sites made explicit: `none` exactly
when some divisor is zero (the idealised stand-in for the IEEE
division-by-zero that produces a NaN/undefined direction in the float
code).  The divisors are `count` (twice) and `c.abs()`. -/
noncomputable def beforeSplineChecked (value : NyquistSplineValue) (count : ℝ) : Option ℂ :=
  if count = 0 then none
  else
    let c := value.m_phase / (count : ℂ)
    if (Complex.abs c : ℝ) = 0 then none
    else some ((c / ((Complex.abs c : ℝ) : ℂ)) * ((value.m_magnitude / count : ℝ) : ℂ))

/-! Helper lemmas. -/

theorem CxQ_add_def (a b : CxQ) : a + b = ⟨a.re + b.re, a.im + b.im⟩ := rfl

theorem write12_length (buf : List ℚ) (i : ℕ) (seg : Segment) :
    (write12 buf i seg).length = buf.length := by
  simp [write12]

theorem write12_getElem (buf : List ℚ) (i j : ℕ) (seg : Segment) :
    (write12 buf i seg)[j]? =
      if i ≤ j ∧ j < i + 12 ∧ j < buf.length
      then (segFloats seg)[j - i]?
      else buf[j]? := by
  rcases Nat.lt_or_ge j i with hlt | hge
  · rw [if_neg (by omega)]
    unfold write12
    rw [List.getElem?_set_ne (by omega), List.getElem?_set_ne (by omega),
        List.getElem?_set_ne (by omega), List.getElem?_set_ne (by omega),
        List.getElem?_set_ne (by omega), List.getElem?_set_ne (by omega),
        List.getElem?_set_ne (by omega), List.getElem?_set_ne (by omega),
        List.getElem?_set_ne (by omega), List.getElem?_set_ne (by omega),
        List.getElem?_set_ne (by omega), List.getElem?_set_ne (by omega)]
  · rcases Nat.lt_or_ge j (i + 12) with hwin | hout
    · obtain ⟨k, rfl⟩ : ∃ k, j = i + k := ⟨j - i, by omega⟩
      have hk : k < 12 := by omega
      by_cases hlen : i + k < buf.length
      · rw [if_pos ⟨hge, hwin, hlen⟩]
        have hlen2 : i < buf.length := by omega
        interval_cases k <;>
          simp [write12, segFloats, List.getElem?_set_ne, List.getElem?_set_eq_of_lt,
            List.length_set, hlen, hlen2]
      · rw [if_neg (by omega)]
        have h1 : (write12 buf i seg).length ≤ i + k := by
          rw [write12_length]; omega
        rw [List.getElem?_eq_none h1, List.getElem?_eq_none (by omega)]
    · rw [if_neg (by omega)]
      unfold write12
      rw [List.getElem?_set_ne (by omega), List.getElem?_set_ne (by omega),
          List.getElem?_set_ne (by omega), List.getElem?_set_ne (by omega),
          List.getElem?_set_ne (by omega), List.getElem?_set_ne (by omega),
          List.getElem?_set_ne (by omega), List.getElem?_set_ne (by omega),
          List.getElem?_set_ne (by omega), List.getElem?_set_ne (by omega),
          List.getElem?_set_ne (by omega), List.getElem?_set_ne (by omega)]

theorem resizeTo_length (l : List ℚ) (n : ℕ) : (resizeTo l n).length = n := by
  simp [resizeTo]
  omega

theorem resizeTo_of_length_eq (l : List ℚ) (n : ℕ) (h : l.length = n) :
    resizeTo l n = l := by
  rw [resizeTo, ← h]
  simp

theorem collected_sim (cap : ℕ) (seg : Segment) (s1 s2 : PassState)
    (h : StateSim s1 s2) : StateSim (collected cap seg s1) (collected cap seg s2) := by
  obtain ⟨hi, hc, hp, hm, hco, hl, ha⟩ := h
  unfold collected
  rw [← hi]
  by_cases hg : s1.i > cap
  · rw [if_pos hg, if_pos hg]
    exact ⟨hi, hc, hp, hm, hco, hl, ha⟩
  · rw [if_neg hg, if_neg hg]
    refine ⟨by simp [hi], by simp [hc], rfl, rfl, rfl,
      by simp [write12_length, hl], ?_⟩
    intro j hj
    dsimp only at hj ⊢
    rw [write12_getElem, write12_getElem, hi, hl]
    by_cases hcond : s2.i ≤ j ∧ j < s2.i + 12 ∧ j < s2.vertices.length
    · rw [if_pos hcond, if_pos hcond]
    · rw [if_neg hcond, if_neg hcond]
      rcases Nat.lt_or_ge j s1.i with hjl | hjg
      · exact ha j hjl
      · have hout : s2.vertices.length ≤ j := by omega
        rw [List.getElem?_eq_none (hl ▸ hout), List.getElem?_eq_none hout]

theorem runSegments_sim (cap : ℕ) (segs : List Segment) :
    ∀ s1 s2, StateSim s1 s2 →
      StateSim (runSegments cap segs s1) (runSegments cap segs s2) := by
  induction segs with
  | nil => intro s1 s2 h; exact h
  | cons seg rest ih =>
      intro s1 s2 h
      exact ih _ _ (collected_sim cap seg s1 s2 h)

theorem collected_cursorInv (cap : ℕ) (seg : Segment) (s : PassState)
    (h : CursorInv s) : CursorInv (collected cap seg s) := by
  unfold CursorInv at *
  unfold collected
  by_cases hg : s.i > cap
  · rw [if_pos hg]; exact h
  · rw [if_neg hg]; dsimp only; omega

theorem runSegments_cursorInv (cap : ℕ) (segs : List Segment) :
    ∀ s, CursorInv s → CursorInv (runSegments cap segs s) := by
  induction segs with
  | nil => intro s h; exact h
  | cons seg rest ih =>
      intro s h
      exact ih _ (collected_cursorInv cap seg s h)

/-! Claim theorems. -/

set_option maxRecDepth 4000 in
/-- C1: the claim states that before each 12-float segment write the
cursor plus 12 is verified not to exceed capacity and that
`emittedVertexCount * 12 ≤ capacity` after any pass.  The code's guard is
`i > maxBufferSize`, which admits the write at `i = maxBufferSize`: at
`pointsPerOctave = 1` (capacity 144) a sequence of 13 completed segments
is written in full — the counter reaches 13 with `13 * 12 = 156 > 144`,
and the final cursor 156 lies past the end of the 144-element buffer, so
the 13th write went out of range. -/
theorem C1_overflow_escapes_guard :
    (runSegments (maxBufferSize 1) (List.replicate 13 demoSegment)
      (initState (List.replicate (maxBufferSize 1) 0))).verticiesCount = 13 ∧
    (runSegments (maxBufferSize 1) (List.replicate 13 demoSegment)
      (initState (List.replicate (maxBufferSize 1) 0))).verticiesCount * 12 >
      maxBufferSize 1 ∧
    (runSegments (maxBufferSize 1) (List.replicate 13 demoSegment)
      (initState (List.replicate (maxBufferSize 1) 0))).i >
      (List.replicate (maxBufferSize 1) (0 : ℚ)).length := by
  refine ⟨by decide, by decide, by decide⟩

/-- C2: the capacity computed at the start of a render pass equals
`pointsPerOctave * maxOctaveBands * pointsPerSegment`, independent of the
source data, and the buffer is resized (and the refresh flag raised) only
when that value differs from the current buffer size; when the sizes
agree, `resize` leaves the buffer untouched. -/
theorem C2_capacity_formula {σ : Type} (iter : ℕ → σ → List Segment) (src : σ)
    (ppo : ℕ) (g : Bool) (t : ℚ) (prior : List ℚ) :
    maxBufferSize ppo = ppo * maxOctaveBands * pointsPerSegment ∧
    (renderPass iter ⟨ppo, g, t⟩ src prior).refreshBuffers =
      (prior.length != maxBufferSize ppo) ∧
    (prior.length = maxBufferSize ppo →
      resizeTo prior (maxBufferSize ppo) = prior ∧
      (prior.length != maxBufferSize ppo) = false) ∧
    (prior.length ≠ maxBufferSize ppo →
      (resizeTo prior (maxBufferSize ppo)).length = maxBufferSize ppo ∧
      (prior.length != maxBufferSize ppo) = true) := by
  refine ⟨rfl, rfl, ?_, ?_⟩
  · intro h
    exact ⟨resizeTo_of_length_eq _ _ h, by simp [h]⟩
  · intro h
    exact ⟨resizeTo_length _ _, by simp [h]⟩

/-- Witness for C2 at `pointsPerOctave = 0` and an empty prior buffer:
the sizes agree and the buffer is left untouched. -/
theorem C2_capacity_formula_witness :
    ([] : List ℚ).length = maxBufferSize 0 ∧
    resizeTo [] (maxBufferSize 0) = ([] : List ℚ) :=
  ⟨rfl, ((C2_capacity_formula (fun _ (_ : Unit) => []) () 0 false 0 []).2.2.1 rfl).1⟩

/-- C3: per-bin folding is pure addition of phase, magnitude and
coherence (no division), and the control point produced at band close
equals `unitPhase(phaseSum/count) * (magnitudeSum/count)` — division by
`count` happens only inside `beforeSpline`, the once-per-band
pre-processing step. -/
theorem C3_single_normalization (src : SourceModel) (value : NyquistSplineValue)
    (coh : ℝ) (idx : ℕ) (v : NyquistSplineValue) (count : ℝ) :
    accumulate src value coh idx =
      (⟨value.m_phase + src.phase idx, value.m_magnitude + src.magnitudeRaw idx⟩,
       coh + src.coherence idx) ∧
    beforeSpline v count = specControlPoint v.m_phase v.m_magnitude count := by
  refine ⟨rfl, ?_⟩
  simp [beforeSpline, specControlPoint, specUnitPhase, Complex.ofReal_div]

/-- C4: when the mean phasor of a closed band has zero magnitude, the
normalization step of `beforeSpline` divides by that zero magnitude with
no guard: the checked evaluation reports a division by zero (no fallback
direction exists on any path), and the returned value is exactly the
unguarded divide-by-zero expression. -/
theorem C4_degenerate_direction (value : NyquistSplineValue) (count : ℝ)
    (h : Complex.abs (value.m_phase / (count : ℂ)) = 0) :
    beforeSplineChecked value count = none ∧
    beforeSpline value count =
      value.m_phase / (count : ℂ) / 0 * ((value.m_magnitude / count : ℝ) : ℂ) := by
  constructor
  · unfold beforeSplineChecked
    by_cases hc : count = 0
    · rw [if_pos hc]
    · rw [if_neg hc]
      dsimp only
      rw [if_pos h]
  · simp only [beforeSpline]
    rw [h]
    simp

/-- Witness for C4: two bins of equal magnitude at phases `0` and `π` sum
to the zero phasor; with `count = 2` the normalization hits a division by
zero. -/
theorem C4_degenerate_direction_witness :
    Complex.abs ((⟨0, 2⟩ : NyquistSplineValue).m_phase / ((2 : ℝ) : ℂ)) = 0 ∧
    beforeSplineChecked ⟨0, 2⟩ 2 = none := by
  have h : Complex.abs ((⟨0, 2⟩ : NyquistSplineValue).m_phase / ((2 : ℝ) : ℂ)) = 0 := by
    simp
  exact ⟨h, (C4_degenerate_direction ⟨0, 2⟩ 2 h).1⟩

/-- C5: when the item's parent cannot be cast to the configuration owner
(`dynamic_cast` yields null, covering both an absent parent and one of an
unexpected kind), `synchronize` leaves all three render-thread
configuration fields at their prior values and completes. -/
theorem C5_sync_missing_owner (parent : ParentItem) (cur : RenderConfig)
    (h : dynCastNyquistPlot parent = none) : synchronize parent cur = cur := by
  simp [synchronize, h]

/-- Witness for C5 at an absent parent and a concrete prior
configuration. -/
theorem C5_sync_missing_owner_witness :
    dynCastNyquistPlot ParentItem.absent = none ∧
    synchronize ParentItem.absent ⟨7, true, 1/2⟩ = ⟨7, true, 1/2⟩ :=
  ⟨rfl, C5_sync_missing_owner ParentItem.absent ⟨7, true, 1/2⟩ rfl⟩

/-- C6: a successful (guard-passed, in-range) segment write stores the
real parts of the four control points at offsets 0–3, their imaginary
parts at offsets 4–7 and the four scalar controls at offsets 8–11 of the
cursor position, then advances the cursor by exactly 12 floats and the
vertex counter by exactly 1. -/
theorem C6_segment_write_layout (cap : ℕ) (seg : Segment) (s : PassState)
    (hg : s.i ≤ cap) (hlen : s.i + 12 ≤ s.vertices.length) :
    (collected cap seg s).vertices[s.i + 0]? = some seg.ac0.re ∧
    (collected cap seg s).vertices[s.i + 1]? = some seg.ac1.re ∧
    (collected cap seg s).vertices[s.i + 2]? = some seg.ac2.re ∧
    (collected cap seg s).vertices[s.i + 3]? = some seg.ac3.re ∧
    (collected cap seg s).vertices[s.i + 4]? = some seg.ac0.im ∧
    (collected cap seg s).vertices[s.i + 5]? = some seg.ac1.im ∧
    (collected cap seg s).vertices[s.i + 6]? = some seg.ac2.im ∧
    (collected cap seg s).vertices[s.i + 7]? = some seg.ac3.im ∧
    (collected cap seg s).vertices[s.i + 8]? = some seg.c0 ∧
    (collected cap seg s).vertices[s.i + 9]? = some seg.c1 ∧
    (collected cap seg s).vertices[s.i + 10]? = some seg.c2 ∧
    (collected cap seg s).vertices[s.i + 11]? = some seg.c3 ∧
    (collected cap seg s).i = s.i + 12 ∧
    (collected cap seg s).verticiesCount = s.verticiesCount + 1 := by
  have hng : ¬ s.i > cap := by omega
  unfold collected
  rw [if_neg hng]
  dsimp only
  refine ⟨?_, ?_, ?_, ?_, ?_, ?_, ?_, ?_, ?_, ?_, ?_, ?_, rfl, rfl⟩ <;>
    (rw [write12_getElem, if_pos ⟨by omega, by omega, by omega⟩]; simp [segFloats])

/-- Witness for C6 at cursor 0 into a 12-element buffer with capacity
12. -/
theorem C6_segment_write_layout_witness :
    (initState (List.replicate 12 0)).i ≤ 12 ∧
    (initState (List.replicate 12 0)).i + 12 ≤
      (initState (List.replicate 12 0)).vertices.length ∧
    (collected 12 demoSegment (initState (List.replicate 12 0))).vertices[
      (initState (List.replicate 12 (0 : ℚ))).i + 0]? = some demoSegment.ac0.re ∧
    (collected 12 demoSegment (initState (List.replicate 12 0))).i =
      (initState (List.replicate 12 (0 : ℚ))).i + 12 :=
  ⟨by decide, by decide,
   (C6_segment_write_layout 12 demoSegment (initState (List.replicate 12 0))
     (by decide) (by decide)).1,
   (C6_segment_write_layout 12 demoSegment (initState (List.replicate 12 0))
     (by decide) (by decide)).2.2.2.2.2.2.2.2.2.2.2.2.1⟩

/-- C7: after a successful segment write the accumulator (phase sum,
magnitude sum, coherence sum) is reset to zero, so the next band's first
fold starts from exactly the new bin's values. -/
theorem C7_reset_after_write (cap : ℕ) (seg : Segment) (s : PassState)
    (p : CxQ) (m c : ℚ) (hg : s.i ≤ cap) :
    ((collected cap seg s).valuePhase = ⟨0, 0⟩ ∧
     (collected cap seg s).valueMagnitude = 0 ∧
     (collected cap seg s).coherence = 0) ∧
    ((accumulateQ p m c (collected cap seg s)).valuePhase = p ∧
     (accumulateQ p m c (collected cap seg s)).valueMagnitude = m ∧
     (accumulateQ p m c (collected cap seg s)).coherence = c) := by
  have hng : ¬ s.i > cap := by omega
  simp [collected, accumulateQ, hng, CxQ_add_def]

/-- Witness for C7 at a concrete write followed by a concrete fold. -/
theorem C7_reset_after_write_witness :
    (initState []).i ≤ 0 ∧
    ((collected 0 demoSegment (initState [])).valuePhase = ⟨0, 0⟩ ∧
     (accumulateQ ⟨1, 2⟩ 3 4 (collected 0 demoSegment (initState []))).valuePhase =
       ⟨1, 2⟩) :=
  ⟨by decide,
   (C7_reset_after_write 0 demoSegment (initState []) ⟨1, 2⟩ 3 4 (by decide)).1.1,
   (C7_reset_after_write 0 demoSegment (initState []) ⟨1, 2⟩ 3 4 (by decide)).2.1⟩

/-- C9: when the overflow guard fires, the dropped write leaves the whole
state untouched — in particular the accumulator sums are not reset, so
the next band's bins fold on top of the dropped band's leftover sums. -/
theorem C9_skip_keeps_accumulator (cap : ℕ) (seg : Segment) (s : PassState)
    (p : CxQ) (m c : ℚ) (hg : s.i > cap) :
    collected cap seg s = s ∧
    (accumulateQ p m c (collected cap seg s)).valuePhase = s.valuePhase + p ∧
    (accumulateQ p m c (collected cap seg s)).valueMagnitude = s.valueMagnitude + m ∧
    (accumulateQ p m c (collected cap seg s)).coherence = s.coherence + c := by
  simp [collected, accumulateQ, hg]

/-- Witness for C9 at cursor 1 over capacity 0: the drop changes nothing
and the next fold lands on the leftover coherence sum. -/
theorem C9_skip_keeps_accumulator_witness :
    (⟨[], 1, 0, ⟨0, 0⟩, 5, 6⟩ : PassState).i > 0 ∧
    collected 0 demoSegment ⟨[], 1, 0, ⟨0, 0⟩, 5, 6⟩ = ⟨[], 1, 0, ⟨0, 0⟩, 5, 6⟩ ∧
    (accumulateQ ⟨1, 2⟩ 3 4
      (collected 0 demoSegment ⟨[], 1, 0, ⟨0, 0⟩, 5, 6⟩)).coherence = 6 + 4 :=
  ⟨by decide,
   (C9_skip_keeps_accumulator 0 demoSegment ⟨[], 1, 0, ⟨0, 0⟩, 5, 6⟩
     ⟨1, 2⟩ 3 4 (by decide)).1,
   (C9_skip_keeps_accumulator 0 demoSegment ⟨[], 1, 0, ⟨0, 0⟩, 5, 6⟩
     ⟨1, 2⟩ 3 4 (by decide)).2.2.2⟩

/-- C8: a render pass over fixed source data and fixed configuration
produces the same vertex count and identical buffer contents over the
whole written region (`verticiesCount * 12` floats), whatever the buffer
held before the pass — re-running the pass is deterministic and stale
frame contents never show through. -/
theorem C8_render_pass_deterministic {σ : Type} (iter : ℕ → σ → List Segment)
    (cfg : RenderConfig) (src : σ) (b1 b2 : List ℚ) :
    (renderPass iter cfg src b1).verticiesCount =
      (renderPass iter cfg src b2).verticiesCount ∧
    ∀ j, j < (renderPass iter cfg src b1).verticiesCount * 12 →
      (renderPass iter cfg src b1).vertices[j]? =
        (renderPass iter cfg src b2).vertices[j]? := by
  have hsim : StateSim
      (initState (resizeTo b1 (maxBufferSize cfg.pointsPerOctave)))
      (initState (resizeTo b2 (maxBufferSize cfg.pointsPerOctave))) := by
    refine ⟨rfl, rfl, rfl, rfl, rfl, ?_, ?_⟩
    · simp [initState, resizeTo_length]
    · intro j hj
      simp [initState] at hj
  have hfin := runSegments_sim (maxBufferSize cfg.pointsPerOctave)
    (iter cfg.pointsPerOctave src) _ _ hsim
  have hcur := runSegments_cursorInv (maxBufferSize cfg.pointsPerOctave)
    (iter cfg.pointsPerOctave src)
    (initState (resizeTo b1 (maxBufferSize cfg.pointsPerOctave)))
    (by simp [initState, CursorInv])
  obtain ⟨hi, hc, _, _, _, _, ha⟩ := hfin
  simp only [renderPass]
  refine ⟨hc, ?_⟩
  intro j hj
  apply ha
  unfold CursorInv at hcur
  omega

/-- Witness for C8: one segment at `pointsPerOctave = 1` from two
different prior buffers. -/
theorem C8_render_pass_deterministic_witness :
    (0 : ℕ) < (renderPass (fun _ (_ : Unit) => [demoSegment])
      ⟨1, false, 0⟩ () []).verticiesCount * 12 ∧
    (renderPass (fun _ (_ : Unit) => [demoSegment]) ⟨1, false, 0⟩ () []).vertices[0]? =
      (renderPass (fun _ (_ : Unit) => [demoSegment]) ⟨1, false, 0⟩ () [5]).vertices[0]? :=
  ⟨by decide,
   (C8_render_pass_deterministic (fun _ (_ : Unit) => [demoSegment])
     ⟨1, false, 0⟩ () [] [5]).2 0 (by decide)⟩

/-- C10: two render passes over the same source data whose configurations
differ only in the coherence gate flag and the coherence threshold write
identical vertex buffers and the same vertex count; those two settings
surface only as the two shader uniforms. -/
theorem C10_coherence_settings_shader_only {σ : Type} (iter : ℕ → σ → List Segment)
    (ppo : ℕ) (g1 g2 : Bool) (t1 t2 : ℚ) (src : σ) (prior : List ℚ) :
    (renderPass iter ⟨ppo, g1, t1⟩ src prior).vertices =
      (renderPass iter ⟨ppo, g2, t2⟩ src prior).vertices ∧
    (renderPass iter ⟨ppo, g1, t1⟩ src prior).verticiesCount =
      (renderPass iter ⟨ppo, g2, t2⟩ src prior).verticiesCount ∧
    (renderPass iter ⟨ppo, g1, t1⟩ src prior).uniformCoherenceThreshold = t1 ∧
    (renderPass iter ⟨ppo, g1, t1⟩ src prior).uniformCoherenceAlpha = g1 :=
  ⟨rfl, rfl, rfl, rfl⟩

end NyquistSeriesRenderer
